import Mathlib

/-!
# SentinelRAG — continuous-learning write path and guidelines read cache

Shallow embedding of the learning core of the SentinelRAG repository:

* `src/src/agents/reflector.py` — `ReflectionAgent` (deduplication,
  reinforcement, rule creation, lifecycle maintenance, atomic write);
* `src/src/core/guidelines_manager.py` — `run_schema_migration` and
  `GuidelinesManager` (cached read path, rule selection);
* `src/src/core/embedding_manager.py` — `detect_model_size`,
  `cosine_similarity`.

Conventions used throughout:

* Python floats are modelled as `ℚ`; numeric literals are written with
  `mkRat` so that every definition evaluates under `decide`.
  `round(x, 3)` is modelled as round-half-up on exact rationals
  (`pyRound`); the two conventions agree on every value arising in the
  verified properties (none sits on a `.0005` boundary).
* Timestamps (ISO-8601 strings in the JSON store) are modelled as integers
  (seconds); a field holding a timestamp string is `Option (Option ℤ)`:
  the outer `Option` is JSON-key presence, the inner `none` is a string
  `datetime.fromisoformat` cannot parse.
* Python dicts for rule records are modelled by `EntryObj`, all fields
  optional; `dict.get(k, d)` is `Option.getD`.
* File-system state is explicit (`FS` for the store/temp/backup files of
  the write path and migrator, `FileView` for the read cache); exceptions
  raised by the OS or by `json` are injected through explicit failure
  oracles, and every `try/except` of the source is a `match`/`if` on them.
* CPython `list.sort`/`sorted` are stable; they are modelled by the stable
  insertion sort `stableSort` (any two stable sorts with the same key
  compute the same list), with `lt x y` meaning "x must be strictly
  before y".
-/

attribute [local semireducible] Rat.add Rat.mul Rat.inv Rat.sub

set_option maxRecDepth 4000

namespace SentinelRAG

/-- Python `round(q, 3)` half-up on exact rationals: the nearest integer to
`q * 1000`, halves up, divided by 1000. -/
def pyRound (q : ℚ) : ℤ := ⌊q + mkRat 1 2⌋

/-- Model of Python `round(x, 3)` used by the reflector for confidences. -/
def round3 (q : ℚ) : ℚ := mkRat (pyRound (q * mkRat 1000 1)) 1000

/-- Python `str.lower()` (ASCII; every string reaching `.lower()` in the
verified properties is ASCII). -/
def pyLower (s : String) : String := String.mk (s.data.map Char.toLower)

/-- Helper for `pyWords`: accumulates the current word (reversed). -/
def wordsAux : List Char → List Char → List String
  | [], acc => if acc.isEmpty then [] else [String.mk acc.reverse]
  | c :: rest, acc =>
    if c.isWhitespace then
      (if acc.isEmpty then wordsAux rest [] else String.mk acc.reverse :: wordsAux rest [])
    else wordsAux rest (c :: acc)

/-- Python `str.split()` with no argument: split on whitespace runs and
drop empty tokens. -/
def pyWords (s : String) : List String := wordsAux s.data []

/-- Python `str.strip()`: drop leading and trailing whitespace. -/
def pyStrip (s : String) : String :=
  String.mk (((s.data.dropWhile Char.isWhitespace).reverse.dropWhile Char.isWhitespace).reverse)

/-- Stable insertion step: keep `b` before the inserted `a` while `lt b a`
("b strictly precedes a"). -/
def insertLt {α : Type} (lt : α → α → Bool) (a : α) : List α → List α
  | [] => [a]
  | b :: bs => if lt b a then b :: insertLt lt a bs else a :: b :: bs

/-- Stable sort (model of CPython's stable `list.sort`/`sorted`): an
element of the original list precedes another in the output iff it
strictly precedes it under `lt`, or neither strictly precedes the other
and it came first. -/
def stableSort {α : Type} (lt : α → α → Bool) : List α → List α
  | [] => []
  | a :: as => insertLt lt a (stableSort lt as)

/-- A rule record as stored in `system_guidelines.json` — a Python dict,
so every field is optional (`src/src/agents/reflector.py` line 494,
`src/src/core/guidelines_manager.py` line 151). -/
structure EntryObj where
  id : Option String
  user_id : Option String
  rule : Option String
  embedding : Option (List ℚ)
  confidence : Option ℚ
  trigger_count : Option ℤ
  query_types : Option (List String)
  language_hint : Option String
  created_at : Option (Option ℤ)
  last_triggered : Option (Option ℤ)
  status : Option String
  source_summary : Option String
  model_generated_by : Option String
deriving DecidableEq

/-- `detect_model_size` (`src/src/core/embedding_manager.py` lines 36-59):
substring tests on the lowercased model name, small markers first,
`"8B"` the default. -/
def detect_model_size (model_name : String) : String :=
  let lower := pyLower model_name
  let small_markers := ["4b", "3b", "2b", "1b", "0.5b", "0.5", "_4b", "_3b", "_2b"]
  let large_markers := ["8b", "7b", "6b", "9b", "_8b", "_7b", "_6b"]
  if small_markers.any (fun m => decide (m.data <:+: lower.data)) then "4B"
  else if large_markers.any (fun m => decide (m.data <:+: lower.data)) then "8B"
  else "8B"

/-- Dot product of two equal-length float vectors (`np.dot`). -/
def dotQ : List ℚ → List ℚ → ℚ
  | a :: as, b :: bs => a * b + dotQ as bs
  | _, _ => 0

/-- `EmbeddingManager.cosine_similarity` (`embedding_manager.py` lines
130-146): dot product of pre-normalized vectors clamped to `[-1, 1]`;
`np.dot` raises on mismatched lengths, caught and turned into `0.0`. -/
def cosine_similarity (vec_a vec_b : List ℚ) : ℚ :=
  if vec_a.length = vec_b.length then
    max (mkRat (-1) 1) (min (mkRat 1 1) (dotQ vec_a vec_b))
  else 0

/-- Dedup threshold for the embedding path. Modelled from the spec:
`Config.learning.EMBEDDING_SIMILARITY_THRESHOLD` lives in
`src/core/config.py`, which is not part of the sources; the spec fixes
the cosine dedup threshold at 0.82 ("a match at or above 0.82 selects
that rule's id"). -/
def EMBEDDING_SIMILARITY_THRESHOLD : ℚ := mkRat 82 100

/-- The stop-word set of `ReflectionAgent._keyword_dedup`
(`reflector.py` lines 435-441). -/
def STOPWORDS : Finset String :=
  ["a", "an", "the", "is", "are", "was", "were", "be", "been", "being",
   "have", "has", "had", "do", "does", "did", "will", "would", "could",
   "should", "may", "might", "must", "can", "to", "of", "in", "for",
   "on", "with", "at", "by", "from", "as", "it", "its", "that", "this",
   "and", "or", "but", "not", "no", "so", "if", "when", "then", "than"].toFinset

/-- `set(text.lower().split()) - STOPWORDS` (`reflector.py` line 442). -/
def tokenSet (text : String) : Finset String :=
  (pyWords (pyLower text)).toFinset \ STOPWORDS

/-- Jaccard overlap of two token sets: `len(i)/len(u) if union else 0`
(`reflector.py` line 450). -/
def jaccard (a b : Finset String) : ℚ :=
  if (a ∪ b).card = 0 then 0 else mkRat ((a ∩ b).card : ℤ) ((a ∪ b).card)

/-- Loop body of `ReflectionAgent._keyword_dedup` (`reflector.py` lines
444-457): scan the active rules in order; skip a rule when either token
set is empty; return the first rule whose overlap reaches 0.55.
(Records in the store always carry an `id`; `rule["id"]` is modelled as
`Option.getD ""`.) -/
def keyword_dedup (new_text : String) : List EntryObj → Option String
  | [] => none
  | r :: rest =>
    let new_tokens := tokenSet new_text
    let existing_tokens := tokenSet (r.rule.getD "")
    if new_tokens = ∅ ∨ existing_tokens = ∅ then keyword_dedup new_text rest
    else if jaccard new_tokens existing_tokens ≥ mkRat 55 100 then some (r.id.getD "")
    else keyword_dedup new_text rest

/-- Embedding-path scan of `ReflectionAgent._find_duplicate`
(`reflector.py` lines 415-425): only active rules whose stored embedding
has length exactly 384 are compared; the first with cosine similarity at
or above the threshold wins; rules without such an embedding are
skipped, and no keyword fallback happens on this path. -/
def embedScan (new_embedding : List ℚ) : List EntryObj → Option String
  | [] => none
  | r :: rest =>
    let stored_emb := r.embedding.getD []
    if stored_emb.length = 384 then
      if cosine_similarity new_embedding stored_emb ≥ EMBEDDING_SIMILARITY_THRESHOLD then
        some (r.id.getD "")
      else embedScan new_embedding rest
    else embedScan new_embedding rest

/-- `ReflectionAgent._find_duplicate` (`reflector.py` lines 392-429).
`ready` is `embedding_manager.is_ready`; `enc` is what
`embedding_manager.encode(new_rule_text)` returned (`none` = `None`).
The keyword fallback runs only when the manager is unavailable or
`encode` returned `None`. -/
def find_duplicate (ready : Bool) (enc : Option (List ℚ)) (new_rule_text : String)
    (existing_rules : List EntryObj) : Option String :=
  let active_rules := existing_rules.filter (fun r => r.status = some "active")
  if active_rules.isEmpty then none
  else if ready then
    match enc with
    | some new_embedding => embedScan new_embedding active_rules
    | none => keyword_dedup new_rule_text active_rules
  else keyword_dedup new_rule_text active_rules

/-- The in-place update applied to the matched rule by
`ReflectionAgent._reinforce_rule` (`reflector.py` lines 465-468). -/
def reinforceOne (now : ℤ) (r : EntryObj) : EntryObj :=
  { r with
    trigger_count := some (r.trigger_count.getD 1 + 1),
    confidence := some (round3 (min (mkRat 1 1) (r.confidence.getD (mkRat 1 2) + mkRat 8 100))),
    last_triggered := some (some now) }

/-- `ReflectionAgent._reinforce_rule` (`reflector.py` lines 461-475):
update the first rule whose id matches (the loop breaks), leave
everything else untouched. -/
def reinforce_rule (now : ℤ) (rule_id : String) : List EntryObj → List EntryObj
  | [] => []
  | r :: rest =>
    if r.id = some rule_id then reinforceOne now r :: rest
    else r :: reinforce_rule now rule_id rest

/-- The generated candidate (pydantic `GeneratedRule`,
`reflector.py` lines 56-106). -/
structure GeneratedRule where
  rule : String
  query_type : String
  language_hint : String
  source_summary : String
  confidence_in_rule : ℚ
deriving DecidableEq

/-- `ReflectionAgent._create_rule_entry` (`reflector.py` lines 479-509).
`new_id` is the fresh `uuid4`; `enc` is the embedding computed for the
rule text if the Embedding Service was ready and returned one. -/
def create_rule_entry (new_id : String) (generated : GeneratedRule)
    (enc : Option (List ℚ)) (now : ℤ) (model : String) : EntryObj :=
  { id := some new_id,
    user_id := some "default",
    rule := some generated.rule,
    embedding := some (enc.getD []),
    confidence := some (round3 (generated.confidence_in_rule * mkRat 6 10)),
    trigger_count := some 1,
    query_types := some [generated.query_type],
    language_hint := some generated.language_hint,
    created_at := some (some now),
    last_triggered := some (some now),
    status := some "active",
    source_summary := some generated.source_summary,
    model_generated_by := some model }

/-- Step 6 of `ReflectionAgent._process` (`reflector.py` lines 271-282):
reinforce the duplicate if one was found, else append the new record. -/
def mergeOrCreate (duplicate_id : Option String) (rules : List EntryObj)
    (new_rule : EntryObj) (now : ℤ) : List EntryObj :=
  match duplicate_id with
  | some rid => reinforce_rule now rid rules
  | none => rules ++ [new_rule]

/-- Number of seconds in `timedelta(days=30)`. -/
def thirtyDaysSec : ℤ := 30 * 86400

/-- Staleness pass of `ReflectionAgent._run_lifecycle` (`reflector.py`
lines 522-539) applied to one record: an active record whose effective
last-trigger time (`last_triggered`, falling back to `created_at`)
parses and is strictly older than 30 days, with `trigger_count < 3`,
is retired; parse failures are ignored. -/
def staleRetire (now : ℤ) (r : EntryObj) : EntryObj :=
  if r.status = some "active" then
    match r.last_triggered.getD (r.created_at.getD none) with
    | some last_triggered =>
      if last_triggered < now - thirtyDaysSec ∧ r.trigger_count.getD 1 < 3 then
        { r with status := some "retired" }
      else r
    | none => r
  else r

/-- Retirement of one record selected by the cap pass of
`ReflectionAgent._run_lifecycle` (`reflector.py` lines 550-558): an
active record whose id is among the chosen lowest-confidence ids is
retired. -/
def capMark (retiree_ids : List String) (r : EntryObj) : EntryObj :=
  if r.status = some "active" ∧ r.id.getD "" ∈ retiree_ids then
    { r with status := some "retired" }
  else r

/-- `ReflectionAgent._run_lifecycle` (`reflector.py` lines 513-564):
staleness retirement, then the hardware-tier cap (30 for the `"4B"`
tier, 50 otherwise): if the active count exceeds the cap, the active
records are stably sorted by ascending confidence (`.get("confidence",
0)`) and the first `count - cap` of them are retired. (Retirement is
applied through the record id; ids in the store are unique `uuid4`s.) -/
def run_lifecycle (model_name : String) (now : ℤ) (rules : List EntryObj) : List EntryObj :=
  let rules1 := rules.map (staleRetire now)
  let model_size := detect_model_size model_name
  let cap : ℕ := if model_size = "4B" then 30 else 50
  let active_rules := rules1.filter (fun r => r.status = some "active")
  if cap < active_rules.length then
    let sorted := stableSort
      (fun a b => decide (a.confidence.getD 0 < b.confidence.getD 0)) active_rules
    let to_retire := active_rules.length - cap
    let retiree_ids : List String := (sorted.take to_retire).map (fun r => r.id.getD "")
    rules1.map (capMark retiree_ids)
  else rules1

/-- A JSON array element of the stored document: a bare string (v1a), an
object (v1b or v2), or some other JSON value (skipped by migration). -/
inductive JEntry
  | str (s : String)
  | obj (o : EntryObj)
  | other
deriving DecidableEq

/-- The top-level JSON object of `system_guidelines.json`, at the
granularity the code inspects (`.get("schema_version")`,
`.get("guidelines")`, `.get("rules")`, `"last_updated"`). -/
structure StoreDoc where
  schema_version : Option String
  last_updated : Option ℤ
  guidelines : Option (List JEntry)
  rules : Option (List JEntry)
deriving DecidableEq

/-- Byte content of a store file: either bytes `json.load` rejects
(`invalid`, tagged to distinguish contents) or the serialization of a
document (`json.dumps` is deterministic, so document equality is
byte-identity). -/
inductive FileData
  | invalid (tag : ℕ)
  | valid (d : StoreDoc)
deriving DecidableEq

/-- The on-disk state touched by the write path and the migrator: the
final store path, the `.temp` path beside it, and the list of backup
files written so far (each backup has a fresh timestamped name). -/
structure FS where
  final : Option FileData
  temp : Option FileData
  backups : List FileData
deriving DecidableEq

/-- Failure injection for `ReflectionAgent._atomic_write`: which step, if
any, raises. `serialize` is `json.dumps`, `roundTrip` is the re-parse of
the serialized string, `tempWrite` the temp-file write, `rename` the
`os.replace`. -/
inductive FailPoint
  | ok
  | serialize
  | roundTrip
  | tempWrite
  | rename
deriving DecidableEq

/-- `ReflectionAgent._atomic_write` (`reflector.py` lines 568-623):
build the updated document (`{**original_data, "schema_version": "2.0",
"last_updated": now, "rules": updated_rules}`), serialize, round-trip
validate (the `"rules"` key check), write to the `.temp` path, then
`os.replace` it onto the final path. Any exception is caught: the temp
file is removed if present and the function returns `False`. -/
def atomic_write (fs : FS) (original_data : StoreDoc) (updated_rules : List EntryObj)
    (now : ℤ) (fp : FailPoint) : Bool × FS :=
  let updated_data : StoreDoc :=
    { original_data with
      schema_version := some "2.0",
      last_updated := some now,
      rules := some (updated_rules.map JEntry.obj) }
  if fp = .serialize then (false, { fs with temp := none })
  else if fp = .roundTrip ∨ updated_data.rules.isNone then (false, { fs with temp := none })
  else if fp = .tempWrite then (false, { fs with temp := none })
  else
    let fs1 : FS := { fs with temp := some (.valid updated_data) }
    if fp = .rename then (false, { fs1 with temp := none })
    else (true, { fs1 with final := some (.valid updated_data), temp := none })

/-- `ReflectionAgent._read_guidelines_raw` (`reflector.py` lines
627-636): parse the store file; a missing file or any parse error yields
the empty v2 skeleton. -/
def read_guidelines_raw (fs : FS) : StoreDoc :=
  match fs.final with
  | some (.valid d) => d
  | _ => { schema_version := some "2.0", last_updated := none, guidelines := none, rules := none }

/-- Configuration threaded through one `run_schema_migration` call: the
current time, the `uuid4` supply, and the Embedding Service
(`encode`, `is_ready`). -/
structure MigCfg where
  now : ℤ
  ids : ℕ → String
  enc : String → Option (List ℚ)
  ready : Bool

/-- Failure injection for `run_schema_migration`: `backup` is
`shutil.copy2` to the backup path, `tempWrite` the temp-file write,
`replace` the `os.replace`, `restore` the handler's copy back from the
backup, `fallback` the handler's empty-v2 write. -/
structure MigFail where
  backup : Bool
  tempWrite : Bool
  replace : Bool
  restore : Bool
  fallback : Bool
deriving DecidableEq

/-- The no-failure oracle. -/
def MigFail.noFail : MigFail := ⟨false, false, false, false, false⟩

/-- The empty v2 document written for a missing store and as the
handler's fallback (`guidelines_manager.py` lines 90-94 and 211-215). -/
def emptyV2 (now : ℤ) : StoreDoc :=
  { schema_version := some "2.0", last_updated := some now, guidelines := none, rules := some [] }

/-- The `guideline` key is only read by migration on legacy dicts; on the
`EntryObj` model it is the `rule` field's v1 alias and is absent from
records the code itself writes, so the lookup falls back through
`rule`. -/
def EntryObj.guideline (_o : EntryObj) : Option String := none

/-- Rule-text extraction of migration STEP 4 (`guidelines_manager.py`
lines 126-131): `raw.strip()` for a string,
`(raw.get("rule") or raw.get("guideline") or "").strip()` for a dict
(Python `or` skips empty strings), `continue` otherwise. -/
def extractRuleText : JEntry → Option String
  | .str s => some (pyStrip s)
  | .obj o =>
    some (pyStrip (match o.rule with
      | some r => if r = "" then (o.guideline.getD "") else r
      | none => o.guideline.getD ""))
  | .other => none

/-- One migrated record (migration STEP 4, `guidelines_manager.py` lines
121-166): fresh id, extracted text, per-field defaults for non-dict
entries, embedding from the Embedding Service when ready (failures
degrade to `[]`). Returns `none` for entries the loop `continue`s
over. -/
def migrate_entry (rule_id : String) (now : ℤ) (enc : String → Option (List ℚ))
    (ready : Bool) (raw : JEntry) : Option EntryObj :=
  match extractRuleText raw with
  | none => none
  | some rule_text =>
    if rule_text = "" then none
    else
      let embedding : List ℚ := if ready then (enc rule_text).getD [] else []
      some (match raw with
        | .obj o =>
          { id := some rule_id,
            user_id := some "default",
            rule := some rule_text,
            embedding := some embedding,
            confidence := some (o.confidence.getD (mkRat 1 2)),
            trigger_count := some (o.trigger_count.getD 1),
            query_types := some (o.query_types.getD ["general"]),
            language_hint := some (o.language_hint.getD "auto"),
            created_at := some (o.created_at.getD (some now)),
            last_triggered := some (o.last_triggered.getD (some now)),
            status := some (o.status.getD "active"),
            source_summary := some (o.source_summary.getD "Migrated from previous version"),
            model_generated_by := some (o.model_generated_by.getD "unknown") }
        | _ =>
          { id := some rule_id,
            user_id := some "default",
            rule := some rule_text,
            embedding := some embedding,
            confidence := some (mkRat 1 2),
            trigger_count := some 1,
            query_types := some ["general"],
            language_hint := some "auto",
            created_at := some (some now),
            last_triggered := some (some now),
            status := some "active",
            source_summary := some "Migrated from previous version",
            model_generated_by := some "unknown" })

/-- Migration STEP 4 over the whole legacy list, consuming one fresh id
per iteration. -/
def migrate_entries (cfg : MigCfg) : ℕ → List JEntry → List EntryObj
  | _, [] => []
  | i, raw :: rest =>
    match migrate_entry (cfg.ids i) cfg.now cfg.enc cfg.ready raw with
    | some r => r :: migrate_entries cfg (i + 1) rest
    | none => migrate_entries cfg (i + 1) rest

/-- The validation asserts of migration STEP 6 (`guidelines_manager.py`
lines 183-187) on one parsed rule: the mandatory keys are present. -/
def hasMandatoryKeys : JEntry → Bool
  | .obj o =>
    o.id.isSome && o.user_id.isSome && o.rule.isSome && o.confidence.isSome && o.status.isSome
  | _ => false

/-- The `except Exception` handler of `run_schema_migration`
(`guidelines_manager.py` lines 193-221): try to restore from this run's
backup (only if `backup_path` was bound and the backup file exists),
remove the temp file, then unconditionally try to write the empty v2
fallback. `backup_data` is the content `shutil.copy2` snapshotted, when
it succeeded. -/
def migrationHandler (fs : FS) (cfg : MigCfg) (f : MigFail)
    (backup_data : Option FileData) : FS :=
  let fsA : FS :=
    match backup_data with
    | some bd => if f.restore then fs else { fs with final := some bd }
    | none => fs
  let fsB : FS := { fsA with temp := none }
  if f.fallback then fsB else { fsB with final := some (.valid (emptyV2 cfg.now)) }

/-- Migration body from STEP 3 on (`guidelines_manager.py` lines
104-191), entered with the file present and parsed-or-corrupt:
best-effort backup, migrate, write temp, validate, atomic rename;
any failure diverts to `migrationHandler`. `current` is the byte
content at the final path. -/
def migrationBody (fs : FS) (cfg : MigCfg) (f : MigFail) (current : FileData)
    (existing : StoreDoc) : FS :=
  let backup_data : Option FileData := if f.backup then none else some current
  let fs1 : FS :=
    match backup_data with
    | some bd => { fs with backups := fs.backups ++ [bd] }
    | none => fs
  let old_rules_raw := existing.guidelines.getD (existing.rules.getD [])
  let migrated_rules := migrate_entries cfg 0 old_rules_raw
  let new_data : StoreDoc :=
    { schema_version := some "2.0",
      last_updated := some cfg.now,
      guidelines := none,
      rules := some (migrated_rules.map JEntry.obj) }
  if f.tempWrite then migrationHandler fs1 cfg f backup_data
  else
    let fs2 : FS := { fs1 with temp := some (.valid new_data) }
    if ¬ (new_data.schema_version = some "2.0"
          ∧ (migrated_rules.map JEntry.obj).all hasMandatoryKeys) then
      migrationHandler fs2 cfg f backup_data
    else if f.replace then migrationHandler fs2 cfg f backup_data
    else { fs2 with final := some (.valid new_data), temp := none }

/-- `run_schema_migration` (`guidelines_manager.py` lines 53-221).
STEP 1: a present file that parses with `schema_version == "2.0"` stops
immediately. STEP 2: a missing file gets the empty v2 document. A
corrupt present file proceeds as `{"guidelines": []}`. Everything else
goes through `migrationBody`; the function never raises. -/
def run_schema_migration (fs : FS) (cfg : MigCfg) (f : MigFail) : FS :=
  match fs.final with
  | some (.valid d) =>
    if d.schema_version = some "2.0" then fs
    else migrationBody fs cfg f (.valid d) d
  | some (.invalid t) =>
    migrationBody fs cfg f (.invalid t)
      { schema_version := none, last_updated := none, guidelines := some [], rules := none }
  | none => { fs with final := some (.valid (emptyV2 cfg.now)) }

/-- What `GuidelinesManager._load` can see at `self._path`: no file
(`os.path.exists` false / `FileNotFoundError`), a present file whose
JSON is corrupt (`getmtime` succeeds, `json.load` raises), or a parsed
document reduced to its `rules` list (`data.get("rules", [])`). -/
inductive FileView
  | missing
  | corrupt (mtime : ℚ)
  | ok (mtime : ℚ) (rules : List EntryObj)
deriving DecidableEq

/-- In-memory state of `GuidelinesManager`
(`guidelines_manager.py` lines 241-257). -/
structure GMState where
  rules : List EntryObj
  active_rules : List EntryObj
  last_mtime : ℚ
  last_check_time : ℚ
  loaded : Bool
  model_size : String
deriving DecidableEq

/-- The state a fresh `GuidelinesManager.__init__` starts from, before
the `self._load()` call (`guidelines_manager.py` lines 247-256);
`model_size` is `detect_model_size(model_name)`. -/
def GMState.fresh (model_name : String) : GMState :=
  { rules := [], active_rules := [], last_mtime := 0, last_check_time := 0,
    loaded := false, model_size := detect_model_size model_name }

/-- `GuidelinesManager._load` (`guidelines_manager.py` lines 266-296):
a missing file resets the cache to zero rules and marks it loaded; a
successful parse replaces the cache and records the mtime; a corrupt
file keeps the previous cache if one was ever loaded, else resets to
zero rules (and in either case updates neither `loaded` nor the
mtime, which is assigned only after a successful parse). -/
def GMState.load (s : GMState) (fv : FileView) : GMState :=
  match fv with
  | .missing => { s with rules := [], active_rules := [], loaded := true }
  | .corrupt _ =>
    if s.loaded then s else { s with rules := [], active_rules := [] }
  | .ok mtime rs =>
    { s with rules := rs,
             active_rules := rs.filter (fun r => r.status = some "active"),
             last_mtime := mtime,
             loaded := true }

/-- Relevance score of one rule (`guidelines_manager.py` lines 341-349):
full weight when `query_type` is among the rule's `query_types`, 0.6
when the rule is tagged general, 0.3 otherwise. -/
def score (query_type : String) (r : EntryObj) : ℚ :=
  let conf := r.confidence.getD (mkRat 1 2)
  let qtypes := r.query_types.getD ["general"]
  if query_type ∈ qtypes then conf * mkRat 1 1
  else if "general" ∈ qtypes then conf * mkRat 6 10
  else conf * mkRat 3 10

/-- The ~4-characters-per-token estimate of one rule
(`guidelines_manager.py` line 361). -/
def token_estimate (r : EntryObj) : ℚ := mkRat ((r.rule.getD "").length : ℤ) 4

/-- Budget loop of `get_relevant_rules` (`guidelines_manager.py` lines
359-366): accept rules in order while the running token estimate stays
within budget; `break` at the first rule that would exceed it. -/
def greedyBudget (token_budget : ℚ) : ℚ → List EntryObj → List EntryObj
  | _, [] => []
  | token_count, r :: rest =>
    let rule_tokens := token_estimate r
    if token_count + rule_tokens ≤ token_budget then
      r :: greedyBudget token_budget (token_count + rule_tokens) rest
    else []

/-- Pure selection core of `GuidelinesManager.get_relevant_rules`
(`guidelines_manager.py` lines 337-368), applied to the cached active
rules: empty-cache short-circuit, stable sort by descending score,
hardware-tier truncation (5 for `"4B"`, else 7), then the greedy token
budget. -/
def select_rules (model_size query_type : String) (token_budget : ℚ)
    (active_rules : List EntryObj) : List EntryObj :=
  if active_rules.isEmpty then []
  else
    let scored := stableSort
      (fun a b => decide (score query_type b < score query_type a)) active_rules
    let max_rules : ℕ := if model_size = "4B" then 5 else 7
    greedyBudget token_budget 0 (scored.take max_rules)

/-- The TTL-window mtime comparison of `get_relevant_rules`
(`guidelines_manager.py` lines 329-334): reload only when the on-disk
mtime differs from the cached one; a `FileNotFoundError` from
`getmtime` is swallowed, keeping the cache. -/
def check_reload (s : GMState) : FileView → GMState
  | .missing => s
  | .corrupt mtime => if mtime ≠ s.last_mtime then s.load (.corrupt mtime) else s
  | .ok mtime rules => if mtime ≠ s.last_mtime then s.load (.ok mtime rules) else s

/-- `GuidelinesManager.get_relevant_rules` (`guidelines_manager.py`
lines 307-368): when the TTL has elapsed since the last check, run the
mtime comparison (possibly reloading) and stamp the check time; then
select from the cached active rules. -/
def get_relevant_rules (s : GMState) (fv : FileView) (now cache_ttl : ℚ)
    (query_type : String) (token_budget : ℚ) : List EntryObj × GMState :=
  let s1 :=
    if cache_ttl ≤ now - s.last_check_time then
      { check_reload s fv with last_check_time := now }
    else s
  (select_rules s1.model_size query_type token_budget s1.active_rules, s1)

/-- `GuidelinesManager.force_reload` (`guidelines_manager.py` lines
372-384): bypass the TTL, reload, reset the TTL timer. -/
def force_reload (s : GMState) (fv : FileView) (now : ℚ) : GMState :=
  { s.load fv with last_check_time := now }

/-! ## Helper lemmas -/

/-- A concrete active record used by the concrete instances below. -/
def mkActiveRule (i : String) (c : ℚ) (txt : String) : EntryObj :=
  { id := some i, user_id := some "default", rule := some txt,
    embedding := some [], confidence := some c, trigger_count := some 5,
    query_types := some ["general"], language_hint := some "auto",
    created_at := some (some 0), last_triggered := some (some 0),
    status := some "active", source_summary := some "demo summary",
    model_generated_by := some "demo-model" }

theorem mkRat_thousandths (k : ℤ) : mkRat k 1000 * mkRat 1000 1 = (k : ℚ) := by
  rw [Rat.mkRat_eq_div, Rat.mkRat_eq_div]
  push_cast
  ring_nf

theorem pyRound_intCast (k : ℤ) : pyRound ((k : ℚ)) = k := by
  unfold pyRound
  rw [Rat.mkRat_eq_div]
  norm_num

/-- `round(x, 3)` is the identity on values that already have at most
three decimal places. -/
theorem round3_thousandths (k : ℤ) : round3 (mkRat k 1000) = mkRat k 1000 := by
  unfold round3
  rw [mkRat_thousandths, pyRound_intCast]

theorem pyRound_mono {x y : ℚ} (h : x ≤ y) : pyRound x ≤ pyRound y := by
  unfold pyRound
  exact Int.floor_le_floor (by linarith)

/-- `round3` never exceeds 1 on inputs at most 1. -/
theorem round3_le_one {x : ℚ} (h : x ≤ 1) : round3 x ≤ 1 := by
  have h1000 : x * mkRat 1000 1 ≤ ((1000 : ℤ) : ℚ) := by
    rw [Rat.mkRat_eq_div]
    push_cast
    nlinarith
  have hfloor : pyRound (x * mkRat 1000 1) ≤ 1000 := by
    calc pyRound (x * mkRat 1000 1) ≤ pyRound ((1000 : ℤ) : ℚ) := pyRound_mono h1000
    _ = 1000 := pyRound_intCast 1000
  unfold round3
  rw [Rat.mkRat_eq_div]
  rw [div_le_one (by norm_num)]
  exact_mod_cast hfloor

theorem mem_insertLt {α : Type} (lt : α → α → Bool) (a x : α) :
    ∀ l : List α, x ∈ insertLt lt a l ↔ x = a ∨ x ∈ l := by
  intro l
  induction l with
  | nil => simp [insertLt]
  | cons b bs ih =>
    unfold insertLt
    by_cases hb : lt b a = true
    · rw [if_pos hb]
      simp only [List.mem_cons, ih]
      tauto
    · rw [if_neg hb]
      simp only [List.mem_cons]

theorem insertLt_pairwise {α : Type} (key : α → ℚ) (a : α) (l : List α)
    (h : l.Pairwise (fun x y => key y ≤ key x)) :
    (insertLt (fun x y => decide (key y < key x)) a l).Pairwise
      (fun x y => key y ≤ key x) := by
  induction l with
  | nil => simp [insertLt]
  | cons b bs ih =>
    unfold insertLt
    rcases List.pairwise_cons.mp h with ⟨hb, hbs⟩
    by_cases hba : key a < key b
    · rw [if_pos (decide_eq_true hba)]
      refine List.pairwise_cons.mpr ⟨?_, ih hbs⟩
      intro x hx
      rcases (mem_insertLt _ a x bs).mp hx with rfl | hmem
      · exact le_of_lt hba
      · exact hb x hmem
    · rw [if_neg (by simpa using hba)]
      refine List.pairwise_cons.mpr ⟨?_, h⟩
      intro x hx
      rcases List.mem_cons.mp hx with rfl | hmem
      · exact le_of_not_lt hba
      · exact le_trans (hb x hmem) (le_of_not_lt hba)

/-- `stableSort` with the descending-by-key comparison sorts descending
by key. -/
theorem stableSort_pairwise {α : Type} (key : α → ℚ) (l : List α) :
    (stableSort (fun x y => decide (key y < key x)) l).Pairwise
      (fun x y => key y ≤ key x) := by
  induction l with
  | nil => simp [stableSort]
  | cons a as ih => exact insertLt_pairwise key a _ ih

theorem greedyBudget_prefix (token_budget : ℚ) :
    ∀ (l : List EntryObj) (tc : ℚ), greedyBudget token_budget tc l <+: l := by
  intro l
  induction l with
  | nil => intro tc; simp [greedyBudget]
  | cons r rest ih =>
    intro tc
    unfold greedyBudget
    by_cases hb : tc + token_estimate r ≤ token_budget
    · rw [if_pos hb]
      rcases ih (tc + token_estimate r) with ⟨t, ht⟩
      exact ⟨t, by rw [List.cons_append, ht]⟩
    · rw [if_neg hb]
      exact List.nil_prefix

theorem greedyBudget_sum (token_budget : ℚ) :
    ∀ (l : List EntryObj) (tc : ℚ),
      greedyBudget token_budget tc l = []
      ∨ tc + ((greedyBudget token_budget tc l).map token_estimate).sum ≤ token_budget := by
  intro l
  induction l with
  | nil => intro tc; left; rfl
  | cons r rest ih =>
    intro tc
    unfold greedyBudget
    by_cases hb : tc + token_estimate r ≤ token_budget
    · right
      simp only [hb, if_true, List.map_cons, List.sum_cons]
      rcases ih (tc + token_estimate r) with hnil | hle
      · rw [hnil]; simpa using hb
      · linarith
    · left
      simp [hb]

/-! ## C10 — `detect_model_size` -/

/-- C10: `detect_model_size` tests the small-size markers before the
large-size markers, so any model name whose lowercase form contains one
of the small markers yields `"4B"` even when a large marker is also
present (`"llama2:13b"` contains `"3b"`), and a name containing no
marker from either list yields `"8B"`. -/
theorem C10_detect_model_size :
    (∀ model_name : String,
      (∃ m ∈ ["4b", "3b", "2b", "1b", "0.5b", "0.5", "_4b", "_3b", "_2b"],
        m.data <:+: (pyLower model_name).data) →
      detect_model_size model_name = "4B")
    ∧ detect_model_size "llama2:13b" = "4B"
    ∧ (∀ model_name : String,
      (∀ m ∈ ["4b", "3b", "2b", "1b", "0.5b", "0.5", "_4b", "_3b", "_2b",
              "8b", "7b", "6b", "9b", "_8b", "_7b", "_6b"],
        ¬ (m.data <:+: (pyLower model_name).data)) →
      detect_model_size model_name = "8B") := by
  refine ⟨?_, by decide, ?_⟩
  · intro model_name ⟨m, hm, hinf⟩
    unfold detect_model_size
    rw [if_pos]
    exact List.any_eq_true.mpr ⟨m, hm, decide_eq_true hinf⟩
  · intro model_name hnone
    unfold detect_model_size
    rw [if_neg, if_neg]
    · intro hany
      rcases List.any_eq_true.mp hany with ⟨m, hm, hd⟩
      exact hnone m (by simp_all) (of_decide_eq_true hd)
    · intro hany
      rcases List.any_eq_true.mp hany with ⟨m, hm, hd⟩
      exact hnone m (by simp_all) (of_decide_eq_true hd)

/-- Witness for C10 at concrete inputs: `"gemma3:4b"` matches a small
marker and maps to `"4B"`; `"mistral:medium"` contains no marker and
maps to `"8B"`. -/
theorem C10_witness :
    detect_model_size "gemma3:4b" = "4B" ∧ detect_model_size "mistral:medium" = "8B" :=
  ⟨C10_detect_model_size.1 "gemma3:4b" ⟨"4b", by decide, by decide⟩,
   C10_detect_model_size.2.2 "mistral:medium" (by decide)⟩

/-! ## C1 — atomic-write failure before the rename -/

/-- C1: if `_atomic_write` fails at serialization, round-trip validation
or the temporary-file write — any point before the rename — it returns
`False` instead of raising, the final store path is byte-identical to
its pre-commit state, and the temporary file is removed. -/
theorem C1_atomic_write_failure
    (fs : FS) (original_data : StoreDoc) (updated_rules : List EntryObj)
    (now : ℤ) (fp : FailPoint)
    (h : fp = .serialize ∨ fp = .roundTrip ∨ fp = .tempWrite) :
    (atomic_write fs original_data updated_rules now fp).1 = false
    ∧ (atomic_write fs original_data updated_rules now fp).2.final = fs.final
    ∧ (atomic_write fs original_data updated_rules now fp).2.temp = none := by
  rcases h with rfl | rfl | rfl <;> simp [atomic_write]

/-- Witness for C1: a temp-write failure over a store holding a one-rule
document leaves the document in place, removes the temp file and
reports `False`. -/
theorem C1_witness :
    (atomic_write
      ⟨some (.valid (emptyV2 0)), some (.invalid 7), []⟩
      (emptyV2 0) [mkActiveRule "r1" (mkRat 1 2) "demo rule text"] 5 .tempWrite).1 = false
    ∧ (atomic_write
      ⟨some (.valid (emptyV2 0)), some (.invalid 7), []⟩
      (emptyV2 0) [mkActiveRule "r1" (mkRat 1 2) "demo rule text"] 5 .tempWrite).2.final
        = some (.valid (emptyV2 0))
    ∧ (atomic_write
      ⟨some (.valid (emptyV2 0)), some (.invalid 7), []⟩
      (emptyV2 0) [mkActiveRule "r1" (mkRat 1 2) "demo rule text"] 5 .tempWrite).2.temp
        = none :=
  C1_atomic_write_failure
    ⟨some (.valid (emptyV2 0)), some (.invalid 7), []⟩
    (emptyV2 0) [mkActiveRule "r1" (mkRat 1 2) "demo rule text"] 5 .tempWrite
    (Or.inr (Or.inr rfl))

/-! ## C2 — merge or create -/

/-- C2: with no duplicate, exactly one new record is appended, active,
with `trigger_count` 1 and stored confidence `round(generated × 0.6, 3)`
(exactly the product whenever it has at most three decimals; 0.54 for a
generated 0.9); with a duplicate, no record is added or removed and the
first id-matched record is reinforced: `trigger_count` incremented,
confidence raised by the fixed 0.08 increment capped at 1.0, and
`last_triggered` refreshed to now. -/
theorem C2_merge_or_create :
    (∀ (new_id : String) (g : GeneratedRule) (enc : Option (List ℚ)) (now : ℤ)
       (model : String) (rules : List EntryObj),
      mergeOrCreate none rules (create_rule_entry new_id g enc now model) now
        = rules ++ [create_rule_entry new_id g enc now model]
      ∧ (create_rule_entry new_id g enc now model).confidence
          = some (round3 (g.confidence_in_rule * mkRat 6 10))
      ∧ (create_rule_entry new_id g enc now model).trigger_count = some 1
      ∧ (create_rule_entry new_id g enc now model).status = some "active")
    ∧ (∀ x : ℚ, (∃ k : ℤ, x = mkRat k 1000) → round3 x = x)
    ∧ round3 (mkRat 9 10 * mkRat 6 10) = mkRat 54 100
    ∧ (∀ (now : ℤ) (rid : String) (rules : List EntryObj),
        (reinforce_rule now rid rules).length = rules.length)
    ∧ (∀ (now : ℤ) (rid : String) (pre post : List EntryObj) (r : EntryObj),
        r.id = some rid → (∀ x ∈ pre, x.id ≠ some rid) →
        reinforce_rule now rid (pre ++ r :: post) = pre ++ reinforceOne now r :: post)
    ∧ (∀ (now : ℤ) (r : EntryObj),
        (reinforceOne now r).trigger_count = some (r.trigger_count.getD 1 + 1)
        ∧ (reinforceOne now r).confidence
            = some (round3 (min (mkRat 1 1) (r.confidence.getD (mkRat 1 2) + mkRat 8 100)))
        ∧ (reinforceOne now r).last_triggered = some (some now)
        ∧ ∀ c : ℚ, (reinforceOne now r).confidence = some c → c ≤ 1) := by
  refine ⟨?_, ?_, by decide, ?_, ?_, ?_⟩
  · intro new_id g enc now model rules
    exact ⟨rfl, rfl, rfl, rfl⟩
  · rintro x ⟨k, rfl⟩
    exact round3_thousandths k
  · intro now rid rules
    induction rules with
    | nil => rfl
    | cons r rest ih =>
      unfold reinforce_rule
      by_cases hid : r.id = some rid
      · rw [if_pos hid]
        simp
      · rw [if_neg hid]
        simp [ih]
  · intro now rid pre post r hr hpre
    induction pre with
    | nil =>
      simp only [List.nil_append]
      unfold reinforce_rule
      rw [if_pos hr]
    | cons p ps ih =>
      have hp : ¬ p.id = some rid := hpre p (List.mem_cons_self p ps)
      simp only [List.cons_append]
      unfold reinforce_rule
      rw [if_neg hp]
      rw [ih (fun x hx => hpre x (List.mem_cons_of_mem p hx))]
  · intro now r
    refine ⟨rfl, rfl, rfl, ?_⟩
    intro c hc
    have hcap : min (mkRat 1 1) (r.confidence.getD (mkRat 1 2) + mkRat 8 100) ≤ 1 := by
      have : (mkRat 1 1 : ℚ) = 1 := by decide
      rw [this]
      exact min_le_left _ _
    have hle := round3_le_one hcap
    have hceq : round3 (min (mkRat 1 1) (r.confidence.getD (mkRat 1 2) + mkRat 8 100)) = c := by
      simpa [reinforceOne] using hc
    rw [← hceq]
    exact hle

/-- Witness for C2: the duplicate branch applied to a one-record store
whose record matches, plus the concrete 0.9 → 0.54 instance. -/
theorem C2_witness :
    reinforce_rule 5 "r1" [mkActiveRule "r1" (mkRat 54 100) "demo rule text"]
      = [reinforceOne 5 (mkActiveRule "r1" (mkRat 54 100) "demo rule text")]
    ∧ round3 (mkRat 54 100) = mkRat 54 100 :=
  ⟨C2_merge_or_create.2.2.2.2.1 5 "r1" [] []
      (mkActiveRule "r1" (mkRat 54 100) "demo rule text") rfl (by simp),
   C2_merge_or_create.2.1 (mkRat 54 100) ⟨540, by decide⟩⟩

/-! ## C7 — idempotent migration -/

theorem migrate_entry_keys (rule_id : String) (now : ℤ) (enc : String → Option (List ℚ))
    (ready : Bool) (raw : JEntry) (r : EntryObj)
    (h : migrate_entry rule_id now enc ready raw = some r) :
    hasMandatoryKeys (.obj r) = true := by
  rcases raw with s | o | _ <;> simp only [migrate_entry, extractRuleText] at h
  · split at h
    · exact absurd h (by simp)
    · simp only [Option.some.injEq] at h
      rw [← h]
      rfl
  · split at h
    · exact absurd h (by simp)
    · simp only [Option.some.injEq] at h
      rw [← h]
      rfl
  · exact absurd h (by simp)

theorem migrate_entries_keys (cfg : MigCfg) :
    ∀ (l : List JEntry) (i : ℕ),
      ((migrate_entries cfg i l).map JEntry.obj).all hasMandatoryKeys = true := by
  intro l
  induction l with
  | nil => intro i; rfl
  | cons raw rest ih =>
    intro i
    unfold migrate_entries
    rcases hmig : migrate_entry (cfg.ids i) cfg.now cfg.enc cfg.ready raw with _ | r
    · exact ih (i + 1)
    · simp only [List.map_cons, List.all_cons]
      rw [migrate_entry_keys _ _ _ _ _ _ hmig, ih (i + 1)]
      rfl

theorem migrationBody_noFail_final (fs : FS) (cfg : MigCfg) (cur : FileData)
    (existing : StoreDoc) :
    ∃ d : StoreDoc,
      (migrationBody fs cfg MigFail.noFail cur existing).final = some (.valid d)
      ∧ d.schema_version = some "2.0" := by
  have hkeys := migrate_entries_keys cfg (existing.guidelines.getD (existing.rules.getD [])) 0
  refine ⟨{ schema_version := some "2.0", last_updated := some cfg.now, guidelines := none,
            rules := some ((migrate_entries cfg 0
              (existing.guidelines.getD (existing.rules.getD []))).map JEntry.obj) }, ?_, rfl⟩
  simp [migrationBody, MigFail.noFail, hkeys]

/-- C7: a run of the Schema Migrator that finds the store present with
`schema_version "2.0"` stops without touching any file, and therefore
two successive (failure-free) runs leave exactly the state the first
run produced. -/
theorem C7_idempotent_migration :
    (∀ (fs : FS) (cfg : MigCfg) (f : MigFail) (d : StoreDoc),
      fs.final = some (.valid d) → d.schema_version = some "2.0" →
      run_schema_migration fs cfg f = fs)
    ∧ (∀ (fs : FS) (cfg cfg2 : MigCfg),
      run_schema_migration (run_schema_migration fs cfg MigFail.noFail) cfg2 MigFail.noFail
        = run_schema_migration fs cfg MigFail.noFail) := by
  have hstop : ∀ (fs : FS) (cfg : MigCfg) (f : MigFail) (d : StoreDoc),
      fs.final = some (.valid d) → d.schema_version = some "2.0" →
      run_schema_migration fs cfg f = fs := by
    intro fs cfg f d hfin hv
    simp [run_schema_migration, hfin, hv]
  refine ⟨hstop, ?_⟩
  intro fs cfg cfg2
  have hv2 : ∃ d : StoreDoc,
      (run_schema_migration fs cfg MigFail.noFail).final = some (.valid d)
      ∧ d.schema_version = some "2.0" := by
    rcases hfin : fs.final with _ | fd
    · simp only [run_schema_migration, hfin]
      exact ⟨emptyV2 cfg.now, rfl, rfl⟩
    · rcases fd with t | d
      · simp only [run_schema_migration, hfin]
        exact migrationBody_noFail_final _ _ _ _
      · by_cases hv : d.schema_version = some "2.0"
        · simp only [run_schema_migration, hfin, if_pos hv]
          exact ⟨d, rfl, hv⟩
        · simp only [run_schema_migration, hfin, if_neg hv]
          exact migrationBody_noFail_final _ _ _ _
  rcases hv2 with ⟨d, hfin, hv⟩
  exact hstop _ cfg2 MigFail.noFail d hfin hv

/-- Witness for C7: a store already holding the empty v2 document is
left untouched by a migration run, and a second run over a fresh v1
store reproduces the first run's state. -/
theorem C7_witness :
    run_schema_migration ⟨some (.valid (emptyV2 3)), none, []⟩
        ⟨7, fun _ => "id", fun _ => none, false⟩ MigFail.noFail
      = ⟨some (.valid (emptyV2 3)), none, []⟩
    ∧ run_schema_migration
        (run_schema_migration ⟨some (.invalid 0), none, []⟩
          ⟨7, fun _ => "id", fun _ => none, false⟩ MigFail.noFail)
        ⟨9, fun _ => "id2", fun _ => none, false⟩ MigFail.noFail
      = run_schema_migration ⟨some (.invalid 0), none, []⟩
          ⟨7, fun _ => "id", fun _ => none, false⟩ MigFail.noFail :=
  ⟨C7_idempotent_migration.1 ⟨some (.valid (emptyV2 3)), none, []⟩
      ⟨7, fun _ => "id", fun _ => none, false⟩ MigFail.noFail (emptyV2 3) rfl rfl,
   C7_idempotent_migration.2 ⟨some (.invalid 0), none, []⟩
      ⟨7, fun _ => "id", fun _ => none, false⟩ ⟨9, fun _ => "id2", fun _ => none, false⟩⟩

/-! ## C6 — migration failure handling (code bug) -/

/-- The v1 store document of the C6 failing input. -/
def C6doc : StoreDoc :=
  { schema_version := none, last_updated := none,
    guidelines := some [.str "Always answer in the language of the question being asked"],
    rules := none }

/-- C6: evaluation of the failing input. A v1 store is backed up
successfully, the temp-file write then raises, and the restore from the
backup succeeds — yet the final store content is the EMPTY v2 document,
not the backed-up v1 document: the handler writes its empty-store
fallback unconditionally after restoring, clobbering the restoration.
The claim (and the code's own "last-resort fallback" comment) require
the fallback only when restoration is impossible. -/
theorem C6_migration_overwrites_restore :
    (run_schema_migration ⟨some (.valid C6doc), none, []⟩
        ⟨0, fun _ => "fresh-id", fun _ => none, false⟩
        ⟨false, true, false, false, false⟩).backups = [.valid C6doc]
    ∧ (run_schema_migration ⟨some (.valid C6doc), none, []⟩
        ⟨0, fun _ => "fresh-id", fun _ => none, false⟩
        ⟨false, true, false, false, false⟩).final = some (.valid (emptyV2 0))
    ∧ (run_schema_migration ⟨some (.valid C6doc), none, []⟩
        ⟨0, fun _ => "fresh-id", fun _ => none, false⟩
        ⟨false, true, false, false, false⟩).final ≠ some (.valid C6doc) := by
  refine ⟨rfl, rfl, ?_⟩
  intro h
  simp only [run_schema_migration, migrationBody, migrationHandler] at h
  exact absurd h (by decide)

/-! ## C9 — write-path invariants -/

theorem staleRetire_id (now : ℤ) (r : EntryObj) : (staleRetire now r).id = r.id := by
  unfold staleRetire
  repeat' split
  all_goals rfl

theorem staleRetire_status (now : ℤ) (r : EntryObj) :
    (staleRetire now r).status = r.status
    ∨ (r.status = some "active" ∧ (staleRetire now r).status = some "retired") := by
  unfold staleRetire
  by_cases hs : r.status = some "active"
  · simp only [if_pos hs]
    rcases h : r.last_triggered.getD (r.created_at.getD none) with _ | t
    · simp only [h]
      left
      trivial
    · simp only [h]
      by_cases hc : t < now - thirtyDaysSec ∧ r.trigger_count.getD 1 < 3
      · simp only [if_pos hc]
        right
        exact ⟨hs, trivial⟩
      · simp only [if_neg hc]
        left
        trivial
  · simp only [if_neg hs]
    left
    trivial

theorem capMark_id (ids : List String) (r : EntryObj) : (capMark ids r).id = r.id := by
  unfold capMark
  split <;> rfl

theorem capMark_status (ids : List String) (r : EntryObj) :
    (capMark ids r).status = r.status
    ∨ (r.status = some "active" ∧ (capMark ids r).status = some "retired") := by
  unfold capMark
  by_cases hc : r.status = some "active" ∧ r.id.getD "" ∈ ids
  · rw [if_pos hc]
    right
    exact ⟨hc.1, rfl⟩
  · rw [if_neg hc]
    left
    rfl

theorem statusStep_trans (a b c : Option String)
    (h1 : b = a ∨ (a = some "active" ∧ b = some "retired"))
    (h2 : c = b ∨ (b = some "active" ∧ c = some "retired")) :
    c = a ∨ (a = some "active" ∧ c = some "retired") := by
  rcases h1 with rfl | ⟨ha, hb⟩
  · exact h2
  · rcases h2 with rfl | ⟨hb2, hc⟩
    · right
      exact ⟨ha, hb⟩
    · rw [hb] at hb2
      exact absurd hb2 (by simp)

/-- The lifecycle pass is a per-record map whose function preserves ids
and only ever moves a status from active to retired. -/
theorem run_lifecycle_factor (model_name : String) (now : ℤ) (rules : List EntryObj) :
    ∃ g : EntryObj → EntryObj,
      run_lifecycle model_name now rules = rules.map g
      ∧ (∀ r, (g r).id = r.id)
      ∧ (∀ r, (g r).status = r.status
          ∨ (r.status = some "active" ∧ (g r).status = some "retired")) := by
  simp only [run_lifecycle]
  split <;> split
  all_goals
    first
    | exact ⟨capMark _ ∘ staleRetire now, List.map_map _ _ _,
        fun r => by rw [Function.comp_apply, capMark_id, staleRetire_id],
        fun r => statusStep_trans _ _ _ (staleRetire_status now r)
          (capMark_status _ (staleRetire now r))⟩
    | exact ⟨staleRetire now, rfl, fun r => staleRetire_id now r,
        fun r => staleRetire_status now r⟩

/-- C9: reinforcement never adds, removes or re-statuses a record (ids
and statuses are preserved positionally); lifecycle maintenance never
adds or removes a record (ids preserved positionally) and its status
transitions are one-directional — a record's status either stays what it
was or goes from active to retired, never retired back to active; a
successful atomic commit writes the full updated rules list into the
document at the final path, deleting nothing. -/
theorem C9_write_invariants :
    (∀ (now : ℤ) (rid : String) (rules : List EntryObj),
      (reinforce_rule now rid rules).map (fun r => r.id) = rules.map (fun r => r.id)
      ∧ (reinforce_rule now rid rules).map (fun r => r.status)
          = rules.map (fun r => r.status))
    ∧ (∀ (model_name : String) (now : ℤ) (rules : List EntryObj),
      (run_lifecycle model_name now rules).map (fun r => r.id)
        = rules.map (fun r => r.id))
    ∧ (∀ (model_name : String) (now : ℤ) (rules : List EntryObj) (i : ℕ)
        (hi : i < rules.length) (hi2 : i < (run_lifecycle model_name now rules).length),
      (run_lifecycle model_name now rules)[i].status = rules[i].status
      ∨ (rules[i].status = some "active"
         ∧ (run_lifecycle model_name now rules)[i].status = some "retired"))
    ∧ (∀ (fs : FS) (orig : StoreDoc) (updated_rules : List EntryObj) (now : ℤ),
      (atomic_write fs orig updated_rules now .ok).1 = true
      ∧ (atomic_write fs orig updated_rules now .ok).2.final
          = some (.valid { orig with
                           schema_version := some "2.0"
                           last_updated := some now
                           rules := some (updated_rules.map JEntry.obj) })) := by
  refine ⟨?_, ?_, ?_, ?_⟩
  · intro now rid rules
    induction rules with
    | nil => exact ⟨rfl, rfl⟩
    | cons r rest ih =>
      unfold reinforce_rule
      by_cases hid : r.id = some rid
      · rw [if_pos hid]
        exact ⟨by simp [reinforceOne], by simp [reinforceOne]⟩
      · rw [if_neg hid]
        exact ⟨by simpa using ih.1, by simpa using ih.2⟩
  · intro model_name now rules
    rcases run_lifecycle_factor model_name now rules with ⟨g, heq, hid, _⟩
    rw [heq, List.map_map]
    apply List.map_congr_left
    intro r _
    rw [Function.comp_apply, hid]
  · intro model_name now rules i hi hi2
    rcases run_lifecycle_factor model_name now rules with ⟨g, heq, _, hstatus⟩
    simp only [heq, List.getElem_map]
    exact hstatus _
  · intro fs orig updated_rules now
    exact ⟨rfl, rfl⟩

/-- Witness for C9 at a concrete store: the status-monotonicity
conjunct applied at index 0 of a two-record list through a lifecycle
run that retires the first record for staleness. -/
theorem C9_witness :
    (run_lifecycle "qwen3:8b" (100 * 86400)
      [mkActiveRule "a" (mkRat 1 2) "t", mkActiveRule "b" (mkRat 1 2) "t"])[0].status
        = (mkActiveRule "a" (mkRat 1 2) "t").status
    ∨ ((mkActiveRule "a" (mkRat 1 2) "t").status = some "active"
       ∧ (run_lifecycle "qwen3:8b" (100 * 86400)
          [mkActiveRule "a" (mkRat 1 2) "t", mkActiveRule "b" (mkRat 1 2) "t"])[0].status
            = some "retired") :=
  C9_write_invariants.2.2.1 "qwen3:8b" (100 * 86400)
    [mkActiveRule "a" (mkRat 1 2) "t", mkActiveRule "b" (mkRat 1 2) "t"] 0
    (by decide) (by decide)

/-! ## C4 — lifecycle maintenance -/

theorem staleRetire_stale (now : ℤ) (r : EntryObj) (t : ℤ)
    (hs : r.status = some "active")
    (ht : r.last_triggered.getD (r.created_at.getD none) = some t)
    (hlt : t < now - thirtyDaysSec) (hc : r.trigger_count.getD 1 < 3) :
    (staleRetire now r).status = some "retired" := by
  unfold staleRetire
  rw [if_pos hs]
  simp only [ht]
  rw [if_pos ⟨hlt, hc⟩]

theorem capMark_retired (ids : List String) (r : EntryObj)
    (h : r.status = some "retired") :
    (capMark ids r).status = some "retired" := by
  unfold capMark
  rw [if_neg]
  · exact h
  · intro hcon
    rw [h] at hcon
    exact absurd hcon.1 (by simp)

theorem staleRetire_keep (now : ℤ) (r : EntryObj)
    (hs : r.status = some "active") (hc : 3 ≤ r.trigger_count.getD 1) :
    staleRetire now r = r := by
  unfold staleRetire
  rw [if_pos hs]
  rcases h : r.last_triggered.getD (r.created_at.getD none) with _ | t
  · simp only [h]
  · simp only [h]
    rw [if_neg (fun hcon => absurd hcon.2 (by omega))]

/-- Like `run_lifecycle_factor`, but also recording that the per-record
function keeps any staleness-retirement. -/
theorem run_lifecycle_factor2 (model_name : String) (now : ℤ) (rules : List EntryObj) :
    ∃ g : EntryObj → EntryObj,
      run_lifecycle model_name now rules = rules.map g
      ∧ (∀ r, (staleRetire now r).status = some "retired" → (g r).status = some "retired") := by
  simp only [run_lifecycle]
  split <;> split
  all_goals
    first
    | exact ⟨capMark _ ∘ staleRetire now, List.map_map _ _ _,
        fun r h => by rw [Function.comp_apply, capMark_retired _ _ h]⟩
    | exact ⟨staleRetire now, rfl, fun r h => h⟩

/-- If the cap is not exceeded after the staleness pass, the cap pass is
skipped and the lifecycle is exactly the staleness map. -/
theorem run_lifecycle_nocap (model_name : String) (now : ℤ) (rules : List EntryObj)
    (hcap : ¬ ((if detect_model_size model_name = "4B" then (30 : ℕ) else 50)
        < ((rules.map (staleRetire now)).filter
            (fun r => r.status = some "active")).length)) :
    run_lifecycle model_name now rules = rules.map (staleRetire now) := by
  simp only [run_lifecycle]
  rw [if_neg hcap]

/-- A 32-record all-active store with ascending confidences `(k+1)/100`,
recent `last_triggered` and `trigger_count` 5. -/
def c4rule (k : ℕ) : EntryObj :=
  { mkActiveRule (String.mk (List.replicate k 'x')) (mkRat ((k : ℤ) + 1) 100) "r" with
    trigger_count := some 5 }

/-- The 32 records of the C4 cap-enforcement scenario. -/
def c4rules : List EntryObj := (List.range 32).map c4rule

/-- C4: lifecycle maintenance retires every active record whose
effective last-trigger time is strictly older than 30 days with
`trigger_count < 3`; an active record with `trigger_count ≥ 3` survives
untouched whenever the active count stays at or under the hardware-tier
cap; the pass never changes the record count; and on a concrete
32-active-record store under the small tier (cap 30) exactly the two
lowest-confidence records are retired, leaving 30 active. -/
theorem C4_lifecycle :
    (∀ (model_name : String) (now : ℤ) (rules : List EntryObj),
      (run_lifecycle model_name now rules).length = rules.length)
    ∧ (∀ (model_name : String) (now : ℤ) (rules : List EntryObj) (i : ℕ) (t : ℤ)
        (hi : i < rules.length) (hi2 : i < (run_lifecycle model_name now rules).length),
        rules[i].status = some "active" →
        rules[i].last_triggered.getD (rules[i].created_at.getD none) = some t →
        t < now - thirtyDaysSec →
        rules[i].trigger_count.getD 1 < 3 →
        (run_lifecycle model_name now rules)[i].status = some "retired")
    ∧ (∀ (model_name : String) (now : ℤ) (rules : List EntryObj) (i : ℕ)
        (hi : i < rules.length) (hi2 : i < (run_lifecycle model_name now rules).length),
        rules[i].status = some "active" →
        3 ≤ rules[i].trigger_count.getD 1 →
        ¬ ((if detect_model_size model_name = "4B" then (30 : ℕ) else 50)
            < ((rules.map (staleRetire now)).filter
                (fun r => r.status = some "active")).length) →
        (run_lifecycle model_name now rules)[i].status = some "active")
    ∧ ((run_lifecycle "gemma3:4b" (10 * 86400) c4rules).map (fun r => r.status)
        = List.replicate 2 (some "retired") ++ List.replicate 30 (some "active"))
    ∧ ((run_lifecycle "gemma3:4b" (10 * 86400) c4rules).filter
        (fun r => r.status = some "active")).length = 30 := by
  refine ⟨?_, ?_, ?_, by decide, by decide⟩
  · intro model_name now rules
    rcases run_lifecycle_factor model_name now rules with ⟨g, heq, _, _⟩
    rw [heq, List.length_map]
  · intro model_name now rules i t hi hi2 hs ht hlt hc
    rcases run_lifecycle_factor2 model_name now rules with ⟨g, heq, hretire⟩
    simp only [heq, List.getElem_map]
    exact hretire _ (staleRetire_stale now _ t hs ht hlt hc)
  · intro model_name now rules i hi hi2 hs hcnt hcap
    simp only [run_lifecycle_nocap model_name now rules hcap, List.getElem_map]
    rw [staleRetire_keep now _ hs hcnt]
    exact hs

/-- The concrete stale record of the C4 witness: `last_triggered` 31
days before "now", `trigger_count` 2. -/
def c4stale : EntryObj :=
  { mkActiveRule "s" (mkRat 1 2) "r" with
    trigger_count := some 2
    last_triggered := some (some (100 * 86400 - 31 * 86400)) }

/-- Witness for C4: the staleness conjunct applied to a concrete
31-day-old record with `trigger_count` 2, which ends up retired. -/
theorem C4_witness :
    (run_lifecycle "qwen3:8b" (100 * 86400) [c4stale])[0].status = some "retired" :=
  C4_lifecycle.2.1 "qwen3:8b" (100 * 86400) [c4stale] 0 (100 * 86400 - 31 * 86400)
    (by decide) (by decide) (by decide) (by decide) (by decide) (by decide)

/-! ## C5 — rule selection -/

/-- A 160-character rule text, estimating to 40 tokens. -/
def c5text : String := String.mk (List.replicate 160 'a')

/-- C5: every active rule is scored `confidence × 1.0` when the query
type is among its `query_types`, `× 0.6` when it is tagged general,
`× 0.3` otherwise; the selection is a prefix of the descending-score
stable sort truncated to the hardware tier's maximum (5 for `"4B"`,
else 7); the truncated list is sorted descending by score; the
selection never exceeds the tier maximum nor (for a nonnegative budget)
the token budget; and three rules estimating to [40, 40, 40] tokens
under budget 90 yield exactly the first two. -/
theorem C5_selection :
    (∀ (query_type : String) (r : EntryObj),
      (query_type ∈ r.query_types.getD ["general"] →
        score query_type r = r.confidence.getD (mkRat 1 2) * mkRat 1 1)
      ∧ (query_type ∉ r.query_types.getD ["general"] →
          "general" ∈ r.query_types.getD ["general"] →
          score query_type r = r.confidence.getD (mkRat 1 2) * mkRat 6 10)
      ∧ (query_type ∉ r.query_types.getD ["general"] →
          "general" ∉ r.query_types.getD ["general"] →
          score query_type r = r.confidence.getD (mkRat 1 2) * mkRat 3 10))
    ∧ (∀ (model_size query_type : String) (token_budget : ℚ) (active : List EntryObj),
        select_rules model_size query_type token_budget active
          <+: (stableSort (fun a b => decide (score query_type b < score query_type a))
                active).take (if model_size = "4B" then 5 else 7))
    ∧ (∀ (query_type : String) (active : List EntryObj),
        (stableSort (fun a b => decide (score query_type b < score query_type a))
          active).Pairwise (fun a b => score query_type b ≤ score query_type a))
    ∧ (∀ (model_size query_type : String) (token_budget : ℚ) (active : List EntryObj),
        (select_rules model_size query_type token_budget active).length
          ≤ (if model_size = "4B" then (5 : ℕ) else 7))
    ∧ (∀ (model_size query_type : String) (token_budget : ℚ) (active : List EntryObj),
        0 ≤ token_budget →
        ((select_rules model_size query_type token_budget active).map token_estimate).sum
          ≤ token_budget)
    ∧ (select_rules "8B" "general" (mkRat 90 1)
        [mkActiveRule "a" (mkRat 9 10) c5text, mkActiveRule "b" (mkRat 8 10) c5text,
         mkActiveRule "c" (mkRat 7 10) c5text]).map (fun r => r.id)
        = [some "a", some "b"] := by
  have hPrefixFact : ∀ (model_size query_type : String) (token_budget : ℚ)
      (active : List EntryObj),
      select_rules model_size query_type token_budget active
        <+: (stableSort (fun a b => decide (score query_type b < score query_type a))
              active).take (if model_size = "4B" then 5 else 7) := by
    intro model_size query_type token_budget active
    unfold select_rules
    by_cases he : active.isEmpty
    · rw [if_pos he]
      exact List.nil_prefix
    · rw [if_neg he]
      exact greedyBudget_prefix token_budget _ 0
  refine ⟨?_, hPrefixFact, ?_, ?_, ?_, by decide⟩
  · intro query_type r
    refine ⟨fun h1 => ?_, fun h1 h2 => ?_, fun h1 h2 => ?_⟩
    · unfold score
      rw [if_pos h1]
    · unfold score
      rw [if_neg h1, if_pos h2]
    · unfold score
      rw [if_neg h1, if_neg h2]
  · intro query_type active
    exact stableSort_pairwise (score query_type) active
  · intro model_size query_type token_budget active
    refine le_trans (hPrefixFact model_size query_type token_budget active).length_le ?_
    exact le_trans (List.length_take_le _ _) (le_refl _)
  · intro model_size query_type token_budget active hb
    unfold select_rules
    by_cases he : active.isEmpty
    · rw [if_pos he]
      simpa using hb
    · rw [if_neg he]
      rcases greedyBudget_sum token_budget
          ((stableSort (fun a b => decide (score query_type b < score query_type a))
            active).take (if model_size = "4B" then 5 else 7)) 0 with hnil | hle
      · rw [hnil]
        simpa using hb
      · linarith

/-- Witness for C5: the budget bound applied to the concrete
three-rule, budget-90 store — the selected rules cost at most 90
tokens. -/
theorem C5_witness :
    ((select_rules "8B" "general" (mkRat 90 1)
      [mkActiveRule "a" (mkRat 9 10) c5text, mkActiveRule "b" (mkRat 8 10) c5text,
       mkActiveRule "c" (mkRat 7 10) c5text]).map token_estimate).sum ≤ mkRat 90 1 :=
  C5_selection.2.2.2.2.1 "8B" "general" (mkRat 90 1)
    [mkActiveRule "a" (mkRat 9 10) c5text, mkActiveRule "b" (mkRat 8 10) c5text,
     mkActiveRule "c" (mkRat 7 10) c5text] (by decide)

/-! ## C8 — missing or corrupt store on the read path -/

theorem grr_empty (s : GMState) (fv2 : FileView) (m2 now ttl : ℚ)
    (query_type : String) (token_budget : ℚ)
    (hact : s.active_rules = []) (hfv2 : fv2 = .missing ∨ fv2 = .corrupt m2) :
    (get_relevant_rules s fv2 now ttl query_type token_budget).1 = [] := by
  simp only [get_relevant_rules]
  rcases hfv2 with rfl | rfl
  · by_cases httl : ttl ≤ now - s.last_check_time
    · rw [if_pos httl]
      show select_rules s.model_size query_type token_budget s.active_rules = []
      rw [hact]
      rfl
    · rw [if_neg httl]
      show select_rules s.model_size query_type token_budget s.active_rules = []
      rw [hact]
      rfl
  · by_cases httl : ttl ≤ now - s.last_check_time
    · rw [if_pos httl]
      simp only [check_reload]
      by_cases hm : m2 ≠ s.last_mtime
      · rw [if_pos hm]
        simp only [GMState.load]
        by_cases hl : s.loaded = true
        · rw [if_pos hl]
          show select_rules s.model_size query_type token_budget s.active_rules = []
          rw [hact]
          rfl
        · rw [if_neg hl]
          rfl
      · rw [if_neg hm]
        show select_rules s.model_size query_type token_budget s.active_rules = []
        rw [hact]
        rfl
    · rw [if_neg httl]
      show select_rules s.model_size query_type token_budget s.active_rules = []
      rw [hact]
      rfl

/-- C8 (amended): the read path never raises on a missing or corrupt
store — both are caught branches yielding an ordinary return; if no
load has ever succeeded (fresh cache), a missing or corrupt store means
zero rules and `get_relevant_rules` returns the empty list; but once a
load HAS succeeded, a missing or corrupt store leaves the previously
cached rules being served (possibly nonempty) until the next successful
reload. -/
theorem C8_missing_corrupt_cache :
    (∀ (model_name : String) (fv : FileView) (m : ℚ),
      (fv = .missing ∨ fv = .corrupt m) →
      ((GMState.fresh model_name).load fv).active_rules = []
      ∧ ∀ (fv2 : FileView) (m2 now ttl : ℚ) (query_type : String) (token_budget : ℚ),
          (fv2 = .missing ∨ fv2 = .corrupt m2) →
          (get_relevant_rules ((GMState.fresh model_name).load fv) fv2 now ttl
            query_type token_budget).1 = [])
    ∧ (∀ (s : GMState) (fv : FileView) (m now ttl : ℚ) (query_type : String)
        (token_budget : ℚ),
        s.loaded = true →
        (fv = .missing ∨ fv = .corrupt m) →
        (get_relevant_rules s fv now ttl query_type token_budget).2.active_rules
            = s.active_rules
        ∧ (get_relevant_rules s fv now ttl query_type token_budget).1
            = select_rules s.model_size query_type token_budget s.active_rules) := by
  constructor
  · intro model_name fv m hfv
    have hact : ((GMState.fresh model_name).load fv).active_rules = [] := by
      rcases hfv with rfl | rfl
      · rfl
      · simp only [GMState.load, GMState.fresh]
        rfl
    exact ⟨hact, fun fv2 m2 now ttl qt tb hfv2 =>
      grr_empty _ fv2 m2 now ttl qt tb hact hfv2⟩
  · intro s fv m now ttl qt tb hload hfv
    rcases hfv with rfl | rfl
    · simp only [get_relevant_rules]
      by_cases httl : ttl ≤ now - s.last_check_time
      · rw [if_pos httl]
        exact ⟨rfl, rfl⟩
      · rw [if_neg httl]
        exact ⟨rfl, rfl⟩
    · simp only [get_relevant_rules]
      by_cases httl : ttl ≤ now - s.last_check_time
      · rw [if_pos httl]
        simp only [check_reload]
        by_cases hm : m ≠ s.last_mtime
        · rw [if_pos hm]
          simp only [GMState.load]
          rw [if_pos hload]
          exact ⟨rfl, rfl⟩
        · rw [if_neg hm]
          exact ⟨rfl, rfl⟩
      · rw [if_neg httl]
        exact ⟨rfl, rfl⟩

/-- The cached state of the C8 counterexample: one active general rule
already loaded. -/
def c8state : GMState :=
  { rules := [mkActiveRule "g1" (mkRat 9 10) "short rule text"],
    active_rules := [mkActiveRule "g1" (mkRat 9 10) "short rule text"],
    last_mtime := mkRat 1 1, last_check_time := 0, loaded := true, model_size := "8B" }

/-- C8 counterexample: the claim says that with a corrupt store file
`get_relevant_rules` "treats the store as containing zero rules
(returning the empty list)". On a cache that already holds one active
rule, a TTL-elapsed call over a corrupt store (changed mtime) returns
that cached rule, not the empty list: corruption keeps the previous
cache (`guidelines_manager.py` line 288, "Keeping previous cache"). -/
theorem C8_counterexample :
    (get_relevant_rules c8state (.corrupt (mkRat 5 1)) (mkRat 100 1) (mkRat 60 1)
      "general" (mkRat 150 1)).1
      = [mkActiveRule "g1" (mkRat 9 10) "short rule text"]
    ∧ (get_relevant_rules c8state (.corrupt (mkRat 5 1)) (mkRat 100 1) (mkRat 60 1)
      "general" (mkRat 150 1)).1 ≠ [] := by
  refine ⟨by decide, ?_⟩
  intro h
  exact absurd h (by decide)

/-- Witness for C8: the cache-keeping conjunct applied to the concrete
loaded cache and a corrupt store view. -/
theorem C8_witness :
    (get_relevant_rules c8state (.corrupt (mkRat 5 1)) (mkRat 100 1) (mkRat 60 1)
      "general" (mkRat 150 1)).2.active_rules = c8state.active_rules
    ∧ (get_relevant_rules c8state (.corrupt (mkRat 5 1)) (mkRat 100 1) (mkRat 60 1)
      "general" (mkRat 150 1)).1
      = select_rules c8state.model_size "general" (mkRat 150 1) c8state.active_rules :=
  C8_missing_corrupt_cache.2 c8state (.corrupt (mkRat 5 1)) (mkRat 5 1) (mkRat 100 1)
    (mkRat 60 1) "general" (mkRat 150 1) rfl (Or.inr rfl)

/-! ## C3 — deduplication paths -/

theorem embedScan_skip (e : List ℚ) :
    ∀ l : List EntryObj,
      (∀ r ∈ l, (r.embedding.getD []).length ≠ 384) → embedScan e l = none := by
  intro l
  induction l with
  | nil => intro _; rfl
  | cons r rest ih =>
    intro h
    simp only [embedScan]
    rw [if_neg (h r (List.mem_cons_self r rest))]
    exact ih (fun x hx => h x (List.mem_cons_of_mem r hx))

theorem embedScan_sound (e : List ℚ) :
    ∀ (l : List EntryObj) (rid : String),
      embedScan e l = some rid →
      ∃ r ∈ l, (r.embedding.getD []).length = 384
        ∧ EMBEDDING_SIMILARITY_THRESHOLD ≤ cosine_similarity e (r.embedding.getD [])
        ∧ rid = r.id.getD "" := by
  intro l
  induction l with
  | nil => intro rid h; exact absurd h (by simp [embedScan])
  | cons r rest ih =>
    intro rid h
    simp only [embedScan] at h
    by_cases h384 : (r.embedding.getD []).length = 384
    · rw [if_pos h384] at h
      by_cases hsim : cosine_similarity e (r.embedding.getD []) ≥ EMBEDDING_SIMILARITY_THRESHOLD
      · rw [if_pos hsim] at h
        simp only [Option.some.injEq] at h
        exact ⟨r, List.mem_cons_self r rest, h384, hsim, h.symm⟩
      · rw [if_neg hsim] at h
        rcases ih rid h with ⟨x, hx, hp⟩
        exact ⟨x, List.mem_cons_of_mem r hx, hp⟩
    · rw [if_neg h384] at h
      rcases ih rid h with ⟨x, hx, hp⟩
      exact ⟨x, List.mem_cons_of_mem r hx, hp⟩

theorem keyword_dedup_sound (t : String) :
    ∀ (l : List EntryObj) (rid : String),
      keyword_dedup t l = some rid →
      ∃ r ∈ l, tokenSet t ≠ ∅ ∧ tokenSet (r.rule.getD "") ≠ ∅
        ∧ mkRat 55 100 ≤ jaccard (tokenSet t) (tokenSet (r.rule.getD ""))
        ∧ rid = r.id.getD "" := by
  intro l
  induction l with
  | nil => intro rid h; exact absurd h (by simp [keyword_dedup])
  | cons r rest ih =>
    intro rid h
    simp only [keyword_dedup] at h
    by_cases hskip : tokenSet t = ∅ ∨ tokenSet (r.rule.getD "") = ∅
    · rw [if_pos hskip] at h
      rcases ih rid h with ⟨x, hx, hp⟩
      exact ⟨x, List.mem_cons_of_mem r hx, hp⟩
    · rw [if_neg hskip] at h
      push_neg at hskip
      by_cases hj : jaccard (tokenSet t) (tokenSet (r.rule.getD "")) ≥ mkRat 55 100
      · rw [if_pos hj] at h
        simp only [Option.some.injEq] at h
        exact ⟨r, List.mem_cons_self r rest, hskip.1, hskip.2, hj, h.symm⟩
      · rw [if_neg hj] at h
        rcases ih rid h with ⟨x, hx, hp⟩
        exact ⟨x, List.mem_cons_of_mem r hx, hp⟩

theorem keyword_dedup_complete (t : String) :
    ∀ l : List EntryObj,
      (∃ r ∈ l, tokenSet t ≠ ∅ ∧ tokenSet (r.rule.getD "") ≠ ∅
        ∧ mkRat 55 100 ≤ jaccard (tokenSet t) (tokenSet (r.rule.getD ""))) →
      keyword_dedup t l ≠ none := by
  intro l
  induction l with
  | nil =>
    rintro ⟨r, hr, _⟩
    exact absurd hr (by simp)
  | cons r rest ih =>
    rintro ⟨x, hx, hts, hex, hj⟩
    simp only [keyword_dedup]
    rcases List.mem_cons.mp hx with rfl | hxr
    · rw [if_neg (by rintro (h | h) <;> [exact hts h; exact hex h])]
      rw [if_pos hj]
      simp
    · by_cases hskip : tokenSet t = ∅ ∨ tokenSet (r.rule.getD "") = ∅
      · rw [if_pos hskip]
        exact ih ⟨x, hxr, hts, hex, hj⟩
      · rw [if_neg hskip]
        by_cases hjr : jaccard (tokenSet t) (tokenSet (r.rule.getD "")) ≥ mkRat 55 100
        · rw [if_pos hjr]
          simp
        · rw [if_neg hjr]
          exact ih ⟨x, hxr, hts, hex, hj⟩

/-- C3 (amended): with the Embedding Service available and the candidate
successfully encoded, only active rules with a stored embedding of
length exactly 384 are compared — by cosine similarity against the 0.82
threshold — and active rules lacking such an embedding are skipped
outright, with no Jaccard comparison for them; the Jaccard fallback
(threshold 0.55 over stop-word-filtered lowercase token sets, all
active rules) runs exactly when the service is unavailable or encoding
returned nothing. -/
theorem C3_dedup_amended :
    (∀ (e : List ℚ) (txt : String) (rules : List EntryObj),
      find_duplicate true (some e) txt rules
        = if (rules.filter (fun r => r.status = some "active")).isEmpty then none
          else embedScan e (rules.filter (fun r => r.status = some "active")))
    ∧ (∀ (enc : Option (List ℚ)) (txt : String) (rules : List EntryObj),
      find_duplicate false enc txt rules
        = if (rules.filter (fun r => r.status = some "active")).isEmpty then none
          else keyword_dedup txt (rules.filter (fun r => r.status = some "active")))
    ∧ (∀ (txt : String) (rules : List EntryObj),
      find_duplicate true none txt rules
        = if (rules.filter (fun r => r.status = some "active")).isEmpty then none
          else keyword_dedup txt (rules.filter (fun r => r.status = some "active")))
    ∧ (∀ (e : List ℚ) (l : List EntryObj),
        (∀ r ∈ l, (r.embedding.getD []).length ≠ 384) → embedScan e l = none)
    ∧ (∀ (e : List ℚ) (l : List EntryObj) (rid : String),
        embedScan e l = some rid →
        ∃ r ∈ l, (r.embedding.getD []).length = 384
          ∧ EMBEDDING_SIMILARITY_THRESHOLD ≤ cosine_similarity e (r.embedding.getD [])
          ∧ rid = r.id.getD "")
    ∧ EMBEDDING_SIMILARITY_THRESHOLD = mkRat 82 100
    ∧ (∀ (t : String) (l : List EntryObj) (rid : String),
        keyword_dedup t l = some rid →
        ∃ r ∈ l, tokenSet t ≠ ∅ ∧ tokenSet (r.rule.getD "") ≠ ∅
          ∧ mkRat 55 100 ≤ jaccard (tokenSet t) (tokenSet (r.rule.getD ""))
          ∧ rid = r.id.getD "")
    ∧ (∀ (t : String) (l : List EntryObj),
        (∃ r ∈ l, tokenSet t ≠ ∅ ∧ tokenSet (r.rule.getD "") ≠ ∅
          ∧ mkRat 55 100 ≤ jaccard (tokenSet t) (tokenSet (r.rule.getD ""))) →
        keyword_dedup t l ≠ none) :=
  ⟨fun _ _ _ => rfl,
   fun _ _ _ => rfl,
   fun _ _ => rfl,
   embedScan_skip,
   embedScan_sound,
   rfl,
   keyword_dedup_sound,
   keyword_dedup_complete⟩

/-- The active rule of the C3 counterexample: no stored embedding
(`embedding == []`), text identical to the candidate. -/
def c3rule : EntryObj := mkActiveRule "r1" (mkRat 1 2) "translate hindi queries fully"

/-- C3 counterexample: the claim says a rule lacking a stored embedding
is compared by Jaccard overlap even when the Embedding Service is
available, an overlap at or above 0.55 selecting it. Here the service
is available and encoding succeeds, the single active rule has no
stored embedding, its Jaccard overlap with the candidate is 1 ≥ 0.55 —
yet `_find_duplicate` returns no duplicate: the embedding path skips
rules without a 384-length embedding and never falls back to Jaccard
per rule. -/
theorem C3_counterexample :
    find_duplicate true (some (List.replicate 384 0))
      "translate hindi queries fully" [c3rule] = none
    ∧ c3rule.status = some "active"
    ∧ (c3rule.embedding.getD []).length ≠ 384
    ∧ tokenSet "translate hindi queries fully" ≠ ∅
    ∧ mkRat 55 100 ≤ jaccard (tokenSet "translate hindi queries fully")
        (tokenSet (c3rule.rule.getD "")) := by
  refine ⟨by decide, by decide, by decide, by decide, by decide⟩

/-- Witness for C3: the Jaccard-fallback completeness conjunct applied
to the concrete candidate and rule of the counterexample — on the
fallback path that same rule IS selected. -/
theorem C3_witness :
    keyword_dedup "translate hindi queries fully" [c3rule] ≠ none :=
  C3_dedup_amended.2.2.2.2.2.2.2 "translate hindi queries fully" [c3rule]
    ⟨c3rule, by decide, by decide, by decide, by decide⟩

end SentinelRAG
